import Mathlib

/-!
Verification of the SLSA tile-stitching notebook (Getting-higher-res-images.ipynb).

The notebook defines three functions: get_json (fetch tiles.json for a
collection URL), get_highest_level (scan the descriptor's levels for the one
named "z0"), and download_image (allocate an RGB canvas of the level's
declared size, fetch and decode each tile, paste it at (x * tile_w, y * tile_h)
where tile_w/tile_h are taken from the first tile, extract the identifier after
"resource/" from the input URL, and save the canvas as slsa-<slug>.jpg).

The embedding below mirrors that code. External collaborators (the HTTP
transport and the image codec) are modelled as an explicit Env record of
oracles, as the spec prescribes for them. Python exceptions become an Err
inductive carried by Except: in particular the UnboundLocalError raised when
get_highest_level finds no "z0" level is Err.levelNotFound, and the
UnboundLocalError raised when the tile loop never runs (so the local id is
never assigned) is Err.unboundName. Network requests and the final save are
recorded in an event trace so that ordering claims ("before any network
activity") are statable.
-/

namespace Slsa

/-- A decoded raster image: pixel dimensions plus a total pixel function.
Only the rectangle [0, width) x [0, height) is meaningful; saving/encoding an
image reads exactly that rectangle. Pixel values are abstract (a Nat encoding
an RGB value). -/
structure Raster where
  width : Nat
  height : Nat
  pix : Nat → Nat → Nat

instance : Inhabited Raster := ⟨⟨0, 0, fun _ _ => 0⟩⟩

/-- PIL Image.new('RGB', (w, h)): a blank (black) canvas. -/
def Raster.new (w h : Nat) : Raster := ⟨w, h, fun _ _ => 0⟩

/-- PIL img.paste(tile, box=(x, y)): write the tile with its top-left corner at
(x, y). Pixels falling outside the canvas rectangle are silently discarded
(clip-on-write): the canvas dimensions are unchanged and only canvas
coordinates inside the tile's rectangle are overwritten. The operation is
total: no error is possible. -/
def paste (img tile : Raster) (x y : Int) : Raster :=
  { img with
    pix := fun i j =>
      if x ≤ (i : Int) ∧ (i : Int) < x + tile.width ∧
          y ≤ (j : Int) ∧ (j : Int) < y + tile.height then
        tile.pix ((i : Int) - x).toNat ((j : Int) - y).toNat
      else img.pix i j }

/-- One entry of a level's "tiles" array in tiles.json: a fetch URL and the
integer grid indices. -/
structure TileRef where
  url : String
  x : Int
  y : Int
deriving DecidableEq

/-- One entry of the "levels" array in tiles.json. -/
structure ZoomLevel where
  name : String
  width : Nat
  height : Nat
  tiles : List TileRef
deriving DecidableEq

/-- The parsed tiles.json document. -/
structure TileDescriptor where
  levels : List ZoomLevel
deriving DecidableEq

/-- The Python exceptions the notebook can raise, by program point. -/
inductive Err where
  /-- requests/JSON failure while retrieving or parsing tiles.json. -/
  | descriptorError
  /-- UnboundLocalError in get_highest_level: no level was named "z0", so
  highest_zoom was never assigned before the return statement. -/
  | levelNotFound
  /-- requests.get raised on a tile URL (network error / timeout). -/
  | tileFetch (url : String)
  /-- Image.open failed on the fetched bytes (not a valid image). -/
  | tileDecode (url : String)
  /-- AttributeError: re.search for "resource/(.*)" returned None. -/
  | identifierExtraction
  /-- UnboundLocalError: the local id was never assigned (zero loop
  iterations) when building the output file name. -/
  | unboundName
deriving DecidableEq

/-- Observable side effects, in program order. -/
inductive Event where
  | fetchDescriptor (url : String)
  | fetchTile (url : String)
  | save (name : String)
deriving DecidableEq

/-- Outcome of requests.get on a tile URL. A non-2xx HTTP status does NOT
raise in requests: it still yields a response whose body bytes are available,
so it is a `response` here, with its status code. Only transport-level
failures (network error, timeout) raise. -/
inductive TileFetchOutcome where
  | response (status : Nat) (content : List Nat)
  | netFail

/-- The external collaborators, as black-box oracles: descriptor fetch+parse
(none models any requests/JSON failure for tiles.json), tile fetch, and the
image decoder (none models PIL rejecting the bytes). -/
structure Env where
  descriptor : String → Option TileDescriptor
  tile : String → TileFetchOutcome
  decode : List Nat → Option Raster

/-- Python url.rstrip('/'). -/
def rstripSlash (s : String) : String := s.dropRightWhile (fun c => c = '/')

/-- The URL requested by get_json: '{}/{}'.format(url.rstrip('/'), 'tiles.json'). -/
def json_url (url : String) : String := rstripSlash url ++ "/" ++ "tiles.json"

/-- get_json: fetch and parse tiles.json, recording the request. -/
def get_json (env : Env) (url : String) : Except Err TileDescriptor × List Event :=
  let ju := json_url url
  match env.descriptor ju with
  | some d => (.ok d, [Event.fetchDescriptor ju])
  | none => (.error .descriptorError, [Event.fetchDescriptor ju])

/-- The loop of get_highest_level: return the first level named "z0"; if the
scan falls through, the local highest_zoom was never assigned and the return
statement raises UnboundLocalError. -/
def find_z0 : List ZoomLevel → Except Err ZoomLevel
  | [] => .error .levelNotFound
  | l :: rest => if l.name = "z0" then .ok l else find_z0 rest

/-- get_highest_level from the notebook. -/
def get_highest_level (data : TileDescriptor) : Except Err ZoomLevel :=
  find_z0 data.levels

/-- The suffix of s after the first occurrence of pat, scanning left to right
(the semantics of re.search locating the leftmost match of a literal
pattern). -/
def suffixAfter (pat : List Char) : List Char → Option (List Char)
  | [] => if pat.isPrefixOf ([] : List Char) then some ([] : List Char) else none
  | c :: rest =>
    if pat.isPrefixOf (c :: rest) then some ((c :: rest).drop pat.length)
    else suffixAfter pat rest

/-- re.search(r'resource\/(.*)', url): group 1 is everything after the first
occurrence of "resource/" up to the end of that line ('.' does not match a
newline). none models re.search returning None, so that .group(1) raises. -/
def extract_id (url : String) : Option String :=
  (suffixAfter "resource/".toList url.toList).map
    (fun cs => String.mk (cs.takeWhile (fun c => c ≠ '\n')))

/-- ASCII lowercasing of one character (the slugifier lowercases its input). -/
def asciiLower (c : Char) : Char :=
  if 'A' ≤ c ∧ c ≤ 'Z' then Char.ofNat (c.toNat + 32) else c

/-- Is this (already lowercased) character kept by the slugifier? -/
def isAlnumLower (c : Char) : Bool :=
  decide (('a' ≤ c ∧ c ≤ 'z') ∨ ('0' ≤ c ∧ c ≤ '9'))

/-- Core of slugify on lowercased characters: keep alphanumeric runs, join
them with single hyphens, drop leading/trailing separators. started records
whether some alphanumeric character was already emitted; sep records whether a
separator character was seen since. -/
def slugAux : Bool → Bool → List Char → List Char
  | _, _, [] => []
  | started, sep, c :: rest =>
    if isAlnumLower c then
      (if started && sep then ['-'] else []) ++ c :: slugAux true false rest
    else
      slugAux started true rest

/-- slugify from python-slugify, for ASCII input: lowercase, replace runs of
non-alphanumeric characters by a single '-', and trim separators at the
ends. -/
def slugify (s : String) : String :=
  String.mk (slugAux false false (s.toList.map asciiLower))

/-- The state of the locals mutated by the tile loop of download_image: the
canvas img, the inferred cell size (tile_w, tile_h) once assigned (assigned
exactly on the first iteration, index == 0), and the local id, unassigned
until the first iteration completes. -/
structure LoopState where
  img : Raster
  cell : Option (Nat × Nat)
  ident : Option String

/-- One iteration of the tile loop of download_image: fetch the tile bytes
(requests.get raises only on transport failure; any response's bytes — status
ignored — go to the decoder), decode them, on the first iteration record the
tile's size as the cell size, paste at (x * tile_w, y * tile_h), then assign
id from the regex on the input URL (raising if it does not match). -/
def process_tile (env : Env) (url : String) (st : LoopState) (t : TileRef) :
    Except Err LoopState × List Event :=
  match env.tile t.url with
  | .netFail => (.error (.tileFetch t.url), [Event.fetchTile t.url])
  | .response _status content =>
    match env.decode content with
    | none => (.error (.tileDecode t.url), [Event.fetchTile t.url])
    | some tile_img =>
      let cell := match st.cell with
        | none => (tile_img.width, tile_img.height)
        | some c => c
      let x : Int := t.x * (cell.1 : Int)
      let y : Int := t.y * (cell.2 : Int)
      let img := paste st.img tile_img x y
      match extract_id url with
      | none => (.error .identifierExtraction, [Event.fetchTile t.url])
      | some i =>
        (.ok { img := img, cell := some cell, ident := some i },
         [Event.fetchTile t.url])

/-- The tile loop of download_image: iterate process_tile over the level's
tiles in order, short-circuiting on the first exception, accumulating the
event trace. -/
def run_tiles (env : Env) (url : String) :
    LoopState → List TileRef → Except Err LoopState × List Event
  | st, [] => (.ok st, [])
  | st, t :: rest =>
    let step := process_tile env url st t
    match step.1 with
    | .error e => (.error e, step.2)
    | .ok st2 =>
      let next := run_tiles env url st2 rest
      (next.1, step.2 ++ next.2)

/-- download_image from the notebook: fetch the descriptor, pick the "z0"
level, allocate the canvas, run the tile loop, then build the file name from
the slugified id (UnboundLocalError if id was never assigned) and save. The
returned value is the saved artifact (file name and raster); any error means
no artifact was produced. -/
def download_image (env : Env) (url : String) :
    Except Err (String × Raster) × List Event :=
  let gj := get_json env url
  match gj.1 with
  | .error e => (.error e, gj.2)
  | .ok data =>
    match get_highest_level data with
    | .error e => (.error e, gj.2)
    | .ok level =>
      let rt := run_tiles env url
        { img := Raster.new level.width level.height, cell := none, ident := none }
        level.tiles
      match rt.1 with
      | .error e => (.error e, gj.2 ++ rt.2)
      | .ok st =>
        match st.ident with
        | none => (.error .unboundName, gj.2 ++ rt.2)
        | some i =>
          let image_name := "slsa-" ++ slugify i ++ ".jpg"
          (.ok (image_name, st.img), gj.2 ++ rt.2 ++ [Event.save image_name])

/-- The fetch-and-decode of one tile, as one oracle query: the raster the loop
would obtain for this tile, or none if requests raised or PIL rejected the
bytes. -/
def fetchRaster (env : Env) (t : TileRef) : Option Raster :=
  match env.tile t.url with
  | .response _ content => env.decode content
  | .netFail => none

/-- The canvas produced by the compositor loop on a given tile list (the
compose operation of the spec, canvas only): some canvas on success, none if
the loop raised. -/
def composeCanvas (env : Env) (url : String) (w h : Nat) (ts : List TileRef) :
    Option Raster :=
  match run_tiles env url { img := Raster.new w h, cell := none, ident := none } ts with
  | (.ok st, _) => some st.img
  | (.error _, _) => none

/-- Pure description of the paste loop once every tile is fetched: fold the
pastes over the (tile, raster) pairs, with the cell size fixed. -/
def pasteAll (base : Raster) (cw ch : Nat) (l : List (TileRef × Raster)) : Raster :=
  l.foldl (fun img p => paste img p.2 (p.1.x * (cw : Int)) (p.1.y * (ch : Int))) base

/-- Does the paste of this (tile, raster) pair write canvas pixel (i, j)?
Exactly the guard of paste at offset (x * cw, y * ch). -/
def coversB (cw ch : Nat) (p : TileRef × Raster) (i j : Nat) : Bool :=
  decide (p.1.x * (cw : Int) ≤ (i : Int) ∧
    (i : Int) < p.1.x * (cw : Int) + p.2.width ∧
    p.1.y * (ch : Int) ≤ (j : Int) ∧
    (j : Int) < p.1.y * (ch : Int) + p.2.height)

/-- The last pair in the list whose paste writes pixel (i, j) — the one whose
value survives in the final canvas. -/
def lastCover (cw ch : Nat) (l : List (TileRef × Raster)) (i j : Nat) :
    Option (TileRef × Raster) :=
  l.reverse.find? (fun p => coversB cw ch p i j)

/-- The canvas region a tile at grid (t.x, t.y) occupies when every tile of
the level has pixel size cw x ch. -/
def inRegion (cw ch : Nat) (t : TileRef) (i j : Nat) : Prop :=
  t.x * (cw : Int) ≤ (i : Int) ∧ (i : Int) < t.x * (cw : Int) + (cw : Int) ∧
  t.y * (ch : Int) ≤ (j : Int) ∧ (j : Int) < t.y * (ch : Int) + (ch : Int)

instance (cw ch : Nat) (t : TileRef) (i j : Nat) : Decidable (inRegion cw ch t i j) := by
  unfold inRegion; infer_instance

/-- Two grid positions whose cells share no canvas pixel. -/
def disjointTiles (cw ch : Nat) (t u : TileRef) : Prop :=
  ∀ i j : Nat, ¬ (inRegion cw ch t i j ∧ inRegion cw ch u i j)

/-- The value pixel (i, j) holds after all pastes: the pixel of the last pair
whose paste wrote it, translated by that pair's offset, or the base canvas
pixel if no paste wrote it. -/
def coverValue (cw ch : Nat) (base : Raster) (l : List (TileRef × Raster)) (i j : Nat) : Nat :=
  match lastCover cw ch l i j with
  | some p => p.2.pix (((i : Int) - p.1.x * (cw : Int)).toNat) (((j : Int) - p.1.y * (ch : Int)).toNat)
  | none => base.pix i j

/-! Concrete fixtures: a small transport and codec, and the descriptors used
to evaluate the pipeline on concrete scenarios. Tile bytes are a one-element
list naming the tile; the codec decodes exactly those, to a 50 x 50 raster
whose pixel values record the tile tag and the local coordinates. -/

/-- A 50 x 50 test raster whose pixels encode (tag, column, row). -/
def tileRaster (tag : Nat) : Raster := ⟨50, 50, fun a b => tag * 10000 + a * 100 + b⟩

/-- Test codec: a one-element byte list [n] decodes to tileRaster n; anything
else (e.g. an HTML error page) is rejected. -/
def exDecode : List Nat → Option Raster
  | [n] => some (tileRaster n)
  | _ => none

/-- Test transport for tiles: four good tile URLs, one URL answered with a 404
status and an HTML-like body, everything else a network failure. -/
def exTileFn (u : String) : TileFetchOutcome :=
  if u = "t0" then .response 200 [0]
  else if u = "t1" then .response 200 [1]
  else if u = "t2" then .response 200 [2]
  else if u = "t3" then .response 200 [3]
  else if u = "html404" then .response 404 [9, 9]
  else .netFail

/-- A collection URL carrying the identifier B+43122. -/
def exUrl : String := "https://host/resource/B+43122"

/-- A collection URL with no "resource/" segment. -/
def badUrl : String := "https://host/photo/B1"

/-- A 2 x 2 grid of 50 x 50 tiles covering a 100 x 100 canvas. -/
def tiles4 : List TileRef := [⟨"t0", 0, 0⟩, ⟨"t1", 1, 0⟩, ⟨"t2", 0, 1⟩, ⟨"t3", 1, 1⟩]

/-- Descriptor whose z0 level is the 100 x 100 canvas of tiles4. -/
def descTiles4 : TileDescriptor := ⟨[⟨"z0", 100, 100, tiles4⟩]⟩

/-- Environment serving descTiles4 for every descriptor request. -/
def envTiles4 : Env := ⟨fun _ => some descTiles4, exTileFn, exDecode⟩

/-- Descriptor with z0 sitting between two other levels. -/
def descLevels3 : TileDescriptor :=
  ⟨[⟨"z3", 10, 10, []⟩, ⟨"z0", 100, 100, tiles4⟩, ⟨"z1", 20, 20, []⟩]⟩

/-- Descriptor with no level named z0. -/
def descNoZ0 : TileDescriptor := ⟨[⟨"z3", 10, 10, []⟩, ⟨"z1", 20, 20, []⟩]⟩

/-- Descriptor whose z0 level has one good tile and one unreachable tile. -/
def descBadTile : TileDescriptor := ⟨[⟨"z0", 100, 100, [⟨"t0", 0, 0⟩, ⟨"bad", 1, 0⟩]⟩]⟩

/-- Environment serving descBadTile. -/
def envBadTile : Env := ⟨fun _ => some descBadTile, exTileFn, exDecode⟩

/-- Descriptor whose z0 level has a single good tile. -/
def descOneTile : TileDescriptor := ⟨[⟨"z0", 100, 100, [⟨"t0", 0, 0⟩]⟩]⟩

/-- Environment serving descOneTile. -/
def envOneTile : Env := ⟨fun _ => some descOneTile, exTileFn, exDecode⟩

/-- Descriptor whose z0 level's only tile is answered with a 404 page. -/
def descHtmlTile : TileDescriptor := ⟨[⟨"z0", 100, 100, [⟨"html404", 0, 0⟩]⟩]⟩

/-- Environment serving descHtmlTile. -/
def envHtmlTile : Env := ⟨fun _ => some descHtmlTile, exTileFn, exDecode⟩

/-- Descriptor whose z0 level has an empty tile list. -/
def descNoTiles : TileDescriptor := ⟨[⟨"z0", 100, 100, []⟩]⟩

/-- Environment serving descNoTiles. -/
def envNoTiles : Env := ⟨fun _ => some descNoTiles, exTileFn, exDecode⟩

/-! Helper lemmas about the embedding. -/

theorem Raster.ext' {a b : Raster} (hw : a.width = b.width) (hh : a.height = b.height)
    (hp : ∀ i j, a.pix i j = b.pix i j) : a = b := by
  cases a; cases b
  simp only [Raster.mk.injEq]
  exact ⟨hw, hh, funext fun i => funext fun j => hp i j⟩

theorem paste_width (img tile : Raster) (x y : Int) : (paste img tile x y).width = img.width := rfl

theorem paste_height (img tile : Raster) (x y : Int) : (paste img tile x y).height = img.height := rfl

theorem pasteAll_width (cw ch : Nat) :
    ∀ (l : List (TileRef × Raster)) (base : Raster), (pasteAll base cw ch l).width = base.width := by
  intro l
  induction l with
  | nil => intro base; rfl
  | cons p rest ih => intro base; simpa [pasteAll] using ih _

theorem pasteAll_height (cw ch : Nat) :
    ∀ (l : List (TileRef × Raster)) (base : Raster), (pasteAll base cw ch l).height = base.height := by
  intro l
  induction l with
  | nil => intro base; rfl
  | cons p rest ih => intro base; simpa [pasteAll] using ih _

theorem fetchRaster_elim {env : Env} {t : TileRef} {r : Raster}
    (h : fetchRaster env t = some r) :
    ∃ s c, env.tile t.url = .response s c ∧ env.decode c = some r := by
  unfold fetchRaster at h
  cases henv : env.tile t.url with
  | response s c => exact ⟨s, c, rfl, by rwa [henv] at h⟩
  | netFail => rw [henv] at h; exact absurd h (by simp)

theorem process_tile_ok_some {env : Env} {url : String} {st : LoopState} {t : TileRef}
    {r : Raster} {c : Nat × Nat} {i : String}
    (hf : fetchRaster env t = some r) (hc : st.cell = some c) (hid : extract_id url = some i) :
    process_tile env url st t =
      (.ok { img := paste st.img r (t.x * (c.1 : Int)) (t.y * (c.2 : Int)),
             cell := some c, ident := some i },
       [Event.fetchTile t.url]) := by
  obtain ⟨s, content, henv, hdec⟩ := fetchRaster_elim hf
  simp [process_tile, henv, hdec, hid, hc]

theorem process_tile_ok_none {env : Env} {url : String} {st : LoopState} {t : TileRef}
    {r : Raster} {i : String}
    (hf : fetchRaster env t = some r) (hc : st.cell = none) (hid : extract_id url = some i) :
    process_tile env url st t =
      (.ok { img := paste st.img r (t.x * (r.width : Int)) (t.y * (r.height : Int)),
             cell := some (r.width, r.height), ident := some i },
       [Event.fetchTile t.url]) := by
  obtain ⟨s, content, henv, hdec⟩ := fetchRaster_elim hf
  simp [process_tile, henv, hdec, hid, hc]

theorem process_tile_events (env : Env) (url : String) (st : LoopState) (t : TileRef) :
    (process_tile env url st t).2 = [Event.fetchTile t.url] := by
  unfold process_tile
  rcases henv : env.tile t.url with ⟨s, c⟩ | _
  · rcases hdec : env.decode c with _ | r
    · simp [henv, hdec]
    · rcases hid : extract_id url with _ | i <;> simp [henv, hdec, hid]
  · simp [henv]

theorem process_tile_ok_fetch {env : Env} {url : String} {st st2 : LoopState} {t : TileRef}
    (h : (process_tile env url st t).1 = .ok st2) :
    (fetchRaster env t).isSome := by
  cases hfr : fetchRaster env t with
  | some r => rfl
  | none =>
    exfalso
    unfold fetchRaster at hfr
    cases henv : env.tile t.url with
    | netFail => simp [process_tile, henv] at h
    | response s c =>
      rw [henv] at hfr
      have hdec : env.decode c = none := hfr
      simp [process_tile, henv, hdec] at h

theorem run_tiles_ok_fetch {env : Env} {url : String} :
    ∀ {ts : List TileRef} {st st' : LoopState},
      (run_tiles env url st ts).1 = .ok st' → ∀ t ∈ ts, (fetchRaster env t).isSome := by
  intro ts
  induction ts with
  | nil => intro st st' _ t ht; exact absurd ht (List.not_mem_nil t)
  | cons a rest ih =>
    intro st st' h t ht
    simp only [run_tiles] at h
    cases hpt : (process_tile env url st a).1 with
    | error e => rw [hpt] at h; simp at h
    | ok st2 =>
      rw [hpt] at h
      cases ht with
      | head => exact process_tile_ok_fetch hpt
      | tail _ ht => exact ih h t ht

theorem run_tiles_no_save (env : Env) (url : String) :
    ∀ (ts : List TileRef) (st : LoopState) (s : String),
      Event.save s ∉ (run_tiles env url st ts).2 := by
  intro ts
  induction ts with
  | nil => intro st s h; exact absurd h (List.not_mem_nil _)
  | cons a rest ih =>
    intro st s h
    simp only [run_tiles] at h
    cases hpt : (process_tile env url st a).1 with
    | error e => rw [hpt] at h; simp [process_tile_events] at h
    | ok st2 =>
      rw [hpt] at h
      simp only [process_tile_events, List.mem_append, List.mem_singleton] at h
      rcases h with h | h
      · simp at h
      · exact ih st2 s h

theorem run_tiles_cell_some {env : Env} {url : String} {ident : String}
    (hid : extract_id url = some ident) (r : TileRef → Raster) :
    ∀ (ts : List TileRef) (st : LoopState) (c : Nat × Nat),
      st.cell = some c → (∀ t ∈ ts, fetchRaster env t = some (r t)) →
      run_tiles env url st ts =
        (.ok { img := pasteAll st.img c.1 c.2 (ts.map (fun t => (t, r t))),
               cell := some c,
               ident := if ts.isEmpty then st.ident else some ident },
         ts.map (fun t => Event.fetchTile t.url)) := by
  intro ts
  induction ts with
  | nil =>
    intro st c hc _
    cases st with
    | mk img cell idv => simp_all [run_tiles, pasteAll]
  | cons a rest ih =>
    intro st c hc hfetch
    have hpt := process_tile_ok_some (hfetch a (List.mem_cons_self a rest)) hc hid
    have hrest := ih { img := paste st.img (r a) (a.x * (c.1 : Int)) (a.y * (c.2 : Int)),
                       cell := some c, ident := some ident } c rfl
      (fun t ht => hfetch t (List.mem_cons_of_mem a ht))
    simp only [run_tiles, hpt, hrest]
    simp only [List.map_cons, List.isEmpty_cons, pasteAll, List.foldl_cons]
    cases rest <;> simp [pasteAll]

theorem run_tiles_uniform {env : Env} {url : String} {ident : String} {cw ch : Nat}
    (hid : extract_id url = some ident) (r : TileRef → Raster)
    (t : TileRef) (rest : List TileRef) (base : Raster)
    (hfetch : ∀ u ∈ t :: rest, fetchRaster env u = some (r u))
    (hdims : ∀ u ∈ t :: rest, (r u).width = cw ∧ (r u).height = ch) :
    run_tiles env url { img := base, cell := none, ident := none } (t :: rest) =
      (.ok { img := pasteAll base cw ch ((t :: rest).map (fun u => (u, r u))),
             cell := some (cw, ch), ident := some ident },
       (t :: rest).map (fun u => Event.fetchTile u.url)) := by
  have hpt := process_tile_ok_none (hfetch t (List.mem_cons_self t rest))
    (show ({ img := base, cell := none, ident := none } : LoopState).cell = none from rfl) hid
  obtain ⟨hw, hh⟩ := hdims t (List.mem_cons_self t rest)
  rw [hw, hh] at hpt
  have hrest := run_tiles_cell_some hid r rest
    { img := paste base (r t) (t.x * (cw : Int)) (t.y * (ch : Int)),
      cell := some (cw, ch), ident := some ident } (cw, ch) rfl
    (fun u hu => hfetch u (List.mem_cons_of_mem t hu))
  simp only [run_tiles, hpt, hrest]
  simp only [List.map_cons, pasteAll, List.foldl_cons]
  cases rest <;> simp [pasteAll]

theorem run_tiles_ok_exists {env : Env} {url : String} {ident : String}
    (hid : extract_id url = some ident) :
    ∀ (ts : List TileRef) (st : LoopState), (∀ t ∈ ts, (fetchRaster env t).isSome) →
      ∃ st', run_tiles env url st ts = (.ok st', ts.map (fun u => Event.fetchTile u.url)) ∧
        st'.ident = if ts.isEmpty then st.ident else some ident := by
  intro ts
  induction ts with
  | nil => intro st _; exact ⟨st, rfl, by simp⟩
  | cons a rest ih =>
    intro st hfetch
    obtain ⟨r, hr⟩ := Option.isSome_iff_exists.mp (hfetch a (List.mem_cons_self a rest))
    cases hc : st.cell with
    | some c =>
      have hpt := process_tile_ok_some hr hc hid
      obtain ⟨st', hrun, hident⟩ := ih
        { img := paste st.img r (a.x * (c.1 : Int)) (a.y * (c.2 : Int)),
          cell := some c, ident := some ident }
        (fun t ht => hfetch t (List.mem_cons_of_mem a ht))
      refine ⟨st', ?_, ?_⟩
      · simp only [run_tiles, hpt, hrun, List.map_cons, List.singleton_append]
      · rw [hident]; cases rest <;> simp
    | none =>
      have hpt := process_tile_ok_none hr hc hid
      obtain ⟨st', hrun, hident⟩ := ih
        { img := paste st.img r (a.x * (r.width : Int)) (a.y * (r.height : Int)),
          cell := some (r.width, r.height), ident := some ident }
        (fun t ht => hfetch t (List.mem_cons_of_mem a ht))
      refine ⟨st', ?_, ?_⟩
      · simp only [run_tiles, hpt, hrun, List.map_cons, List.singleton_append]
      · rw [hident]; cases rest <;> simp

theorem paste_pix (img tile : Raster) (x y : Int) (i j : Nat) :
    (paste img tile x y).pix i j =
      if x ≤ (i : Int) ∧ (i : Int) < x + tile.width ∧
          y ≤ (j : Int) ∧ (j : Int) < y + tile.height then
        tile.pix ((i : Int) - x).toNat ((j : Int) - y).toNat
      else img.pix i j := rfl

theorem coversB_true_iff {cw ch : Nat} {p : TileRef × Raster} {i j : Nat} :
    coversB cw ch p i j = true ↔
      (p.1.x * (cw : Int) ≤ (i : Int) ∧ (i : Int) < p.1.x * (cw : Int) + p.2.width ∧
       p.1.y * (ch : Int) ≤ (j : Int) ∧ (j : Int) < p.1.y * (ch : Int) + p.2.height) := by
  simp [coversB]

theorem pasteAll_pix (cw ch : Nat) (i j : Nat) :
    ∀ (l : List (TileRef × Raster)) (base : Raster),
      (pasteAll base cw ch l).pix i j = coverValue cw ch base l i j := by
  intro l
  induction l with
  | nil => intro base; rfl
  | cons p rest ih =>
    intro base
    have hcons : pasteAll base cw ch (p :: rest) =
        pasteAll (paste base p.2 (p.1.x * (cw : Int)) (p.1.y * (ch : Int))) cw ch rest := by
      simp [pasteAll]
    rw [hcons, ih]
    unfold coverValue lastCover
    rw [List.reverse_cons, List.find?_append]
    cases hfind : rest.reverse.find? (fun q => coversB cw ch q i j) with
    | some q => rfl
    | none =>
      simp only [Option.none_or]
      cases hc : coversB cw ch p i j with
      | true =>
        have hfp : List.find? (fun q => coversB cw ch q i j) [p] = some p := by
          simp [List.find?, hc]
        rw [hfp, paste_pix, if_pos (coversB_true_iff.mp hc)]
      | false =>
        have hfp : List.find? (fun q => coversB cw ch q i j) [p] = none := by
          simp [List.find?, hc]
        rw [hfp, paste_pix,
          if_neg (fun hcond => absurd (coversB_true_iff.mpr hcond) (by simp [hc]))]

theorem find?_eq_some_of_unique {α : Type} {p : α → Bool} :
    ∀ {l : List α} {a : α}, a ∈ l → p a = true → (∀ b ∈ l, p b = true → b = a) →
      l.find? p = some a := by
  intro l
  induction l with
  | nil => intro a ha _ _; exact absurd ha (List.not_mem_nil a)
  | cons x rest ih =>
    intro a ha hpa huniq
    by_cases hx : p x = true
    · have hxa : x = a := huniq x (List.mem_cons_self x rest) hx
      rw [List.find?_cons_of_pos _ hx, hxa]
    · rw [List.find?_cons_of_neg _ (by simpa using hx)]
      have ha' : a ∈ rest := by
        cases ha with
        | head => exact absurd hpa hx
        | tail _ h => exact h
      exact ih ha' hpa (fun b hb => huniq b (List.mem_cons_of_mem x hb))

theorem disjointTiles_symm {cw ch : Nat} {t u : TileRef} (h : disjointTiles cw ch t u) :
    disjointTiles cw ch u t :=
  fun i j hc => h i j ⟨hc.2, hc.1⟩

theorem disjointTiles_of_grid {cw ch : Nat} (hcw : 0 < cw) (hch : 0 < ch) {t u : TileRef}
    (h : t.x ≠ u.x ∨ t.y ≠ u.y) : disjointTiles cw ch t u := by
  rintro i j ⟨⟨h1, h2, h3, h4⟩, h5, h6, h7, h8⟩
  have hcw' : (0 : Int) < (cw : Int) := by exact_mod_cast hcw
  have hch' : (0 : Int) < (ch : Int) := by exact_mod_cast hch
  rcases h with h | h
  · apply h
    have ha : u.x * (cw : Int) < (t.x + 1) * (cw : Int) := by
      calc u.x * (cw : Int) ≤ (i : Int) := h5
      _ < t.x * (cw : Int) + (cw : Int) := h2
      _ = (t.x + 1) * (cw : Int) := by ring
    have hb : t.x * (cw : Int) < (u.x + 1) * (cw : Int) := by
      calc t.x * (cw : Int) ≤ (i : Int) := h1
      _ < u.x * (cw : Int) + (cw : Int) := h6
      _ = (u.x + 1) * (cw : Int) := by ring
    have ha' : u.x < t.x + 1 := lt_of_mul_lt_mul_right ha (le_of_lt hcw')
    have hb' : t.x < u.x + 1 := lt_of_mul_lt_mul_right hb (le_of_lt hcw')
    omega
  · apply h
    have ha : u.y * (ch : Int) < (t.y + 1) * (ch : Int) := by
      calc u.y * (ch : Int) ≤ (j : Int) := h7
      _ < t.y * (ch : Int) + (ch : Int) := h4
      _ = (t.y + 1) * (ch : Int) := by ring
    have hb : t.y * (ch : Int) < (u.y + 1) * (ch : Int) := by
      calc t.y * (ch : Int) ≤ (j : Int) := h3
      _ < u.y * (ch : Int) + (ch : Int) := h8
      _ = (u.y + 1) * (ch : Int) := by ring
    have ha' : u.y < t.y + 1 := lt_of_mul_lt_mul_right ha (le_of_lt hch')
    have hb' : t.y < u.y + 1 := lt_of_mul_lt_mul_right hb (le_of_lt hch')
    omega

theorem coversB_pair_iff {cw ch : Nat} {t : TileRef} {r : Raster} {i j : Nat}
    (hw : r.width = cw) (hh : r.height = ch) :
    coversB cw ch (t, r) i j = true ↔ inRegion cw ch t i j := by
  simp [coversB, inRegion, hw, hh]

theorem lastCover_perm {cw ch : Nat} {l l' : List (TileRef × Raster)} (hperm : l.Perm l')
    (huniq : ∀ p ∈ l, ∀ q ∈ l, ∀ i j : Nat,
      coversB cw ch p i j = true → coversB cw ch q i j = true → p = q)
    (i j : Nat) : lastCover cw ch l i j = lastCover cw ch l' i j := by
  unfold lastCover
  cases hf : l.reverse.find? (fun p => coversB cw ch p i j) with
  | some p =>
    have hp : coversB cw ch p i j = true := by
      have := List.find?_some hf
      simpa using this
    have hmem : p ∈ l := List.mem_reverse.mp (List.mem_of_find?_eq_some hf)
    have hmem' : p ∈ l'.reverse := List.mem_reverse.mpr (hperm.mem_iff.mp hmem)
    exact (find?_eq_some_of_unique hmem' (by simpa using hp)
      (fun b hb hpb => huniq b (hperm.mem_iff.mpr (List.mem_reverse.mp hb)) p hmem i j
        (by simpa using hpb) hp)).symm
  | none =>
    rw [List.find?_eq_none.mpr ?_]
    intro q hq
    have hql : q ∈ l := hperm.mem_iff.mpr (List.mem_reverse.mp hq)
    have := List.find?_eq_none.mp hf q (List.mem_reverse.mpr hql)
    simpa using this

theorem string_mk_data (s : String) : String.mk s.data = s := rfl

theorem suffixAfter_split {pat : List Char} (hpat : pat ≠ []) :
    ∀ (pre ident : List Char),
      (∀ p : Nat, p < pre.length → ¬ pat.isPrefixOf ((pre ++ pat ++ ident).drop p) = true) →
      suffixAfter pat (pre ++ pat ++ ident) = some ident := by
  intro pre
  induction pre with
  | nil =>
    intro ident _
    obtain ⟨c, pp, rfl⟩ := List.exists_cons_of_ne_nil hpat
    simp only [List.nil_append, List.cons_append]
    have hpre : (c :: pp).isPrefixOf (c :: (pp ++ ident)) = true := by
      rw [List.isPrefixOf_iff_prefix]
      exact ⟨ident, by simp⟩
    simp only [suffixAfter, hpre, if_true]
    congr 1
    rw [← List.cons_append]
    exact List.drop_left _ _
  | cons c pre' ih =>
    intro ident hno
    have hshape : (c :: pre') ++ pat ++ ident = c :: (pre' ++ pat ++ ident) := by simp
    rw [hshape]
    have h0 : ¬ pat.isPrefixOf (c :: (pre' ++ pat ++ ident)) = true := by
      have := hno 0 (by simp)
      rw [hshape] at this
      simpa using this
    rw [show suffixAfter pat (c :: (pre' ++ pat ++ ident)) =
      if pat.isPrefixOf (c :: (pre' ++ pat ++ ident)) then
        some ((c :: (pre' ++ pat ++ ident)).drop pat.length)
      else suffixAfter pat (pre' ++ pat ++ ident) from rfl]
    rw [if_neg (by simpa using h0)]
    refine ih ident ?_
    intro p hp
    have := hno (p + 1) (by simp; omega)
    rw [hshape] at this
    simpa using this

theorem extract_id_split (pre ident : String)
    (hno : ∀ p : Nat, p < pre.data.length →
      ¬ ("resource/".data.isPrefixOf ((pre.data ++ "resource/".data ++ ident.data).drop p)) = true)
    (hnl : ∀ c ∈ ident.data, ¬ c = '\n') :
    extract_id (pre ++ "resource/" ++ ident) = some ident := by
  unfold extract_id
  have hdata : (pre ++ "resource/" ++ ident).toList =
      pre.data ++ "resource/".data ++ ident.data := by
    show (pre ++ "resource/" ++ ident).data = _
    rw [String.data_append, String.data_append]
  have hpat : "resource/".toList = "resource/".data := rfl
  rw [hdata, hpat, suffixAfter_split (by decide) pre.data ident.data hno, Option.map_some']
  congr 1
  have htake : ident.data.takeWhile (fun c => decide (c ≠ '\n')) = ident.data :=
    List.takeWhile_eq_self_iff.mpr (fun a ha => by simpa using hnl a ha)
  rw [htake]

theorem slugAux_mem :
    ∀ (l : List Char) (b1 b2 : Bool) (c : Char),
      c ∈ slugAux b1 b2 l → isAlnumLower c = true ∨ c = '-' := by
  intro l
  induction l with
  | nil => intro b1 b2 c h; simp [slugAux] at h
  | cons a rest ih =>
    intro b1 b2 c h
    by_cases ha : isAlnumLower a = true
    · rw [show slugAux b1 b2 (a :: rest) =
          (if isAlnumLower a then (if b1 && b2 then ['-'] else []) ++ a :: slugAux true false rest
           else slugAux b1 true rest) from rfl, if_pos ha] at h
      rcases List.mem_append.mp h with h | h
      · cases hb : b1 && b2 with
        | true => rw [hb] at h; simp at h; rw [h]; right; rfl
        | false => rw [hb] at h; simp at h
      · rcases List.mem_cons.mp h with h | h
        · rw [h]; left; exact ha
        · exact ih true false c h
    · rw [show slugAux b1 b2 (a :: rest) =
          (if isAlnumLower a then (if b1 && b2 then ['-'] else []) ++ a :: slugAux true false rest
           else slugAux b1 true rest) from rfl, if_neg ha] at h
      exact ih b1 true c h

theorem slugify_chars (s : String) :
    ∀ c ∈ (slugify s).data, isAlnumLower c = true ∨ c = '-' :=
  fun c h => slugAux_mem _ _ _ c h

theorem find_z0_of_mem :
    ∀ (ls : List ZoomLevel) (l : ZoomLevel), l ∈ ls → l.name = "z0" →
      (∀ l' ∈ ls, l'.name = "z0" → l' = l) → find_z0 ls = .ok l := by
  intro ls
  induction ls with
  | nil => intro l hl _ _; exact absurd hl (List.not_mem_nil l)
  | cons a rest ih =>
    intro l hl hname huniq
    by_cases ha : a.name = "z0"
    · have haa : a = l := huniq a (List.mem_cons_self a rest) ha
      rw [show find_z0 (a :: rest) = if a.name = "z0" then .ok a else find_z0 rest from rfl,
        if_pos ha, haa]
    · rw [show find_z0 (a :: rest) = if a.name = "z0" then .ok a else find_z0 rest from rfl,
        if_neg ha]
      have hl' : l ∈ rest := by
        cases hl with
        | head => exact absurd hname ha
        | tail _ hm => exact hm
      exact ih l hl' hname (fun l' h' => huniq l' (List.mem_cons_of_mem a h'))

theorem find_z0_none :
    ∀ (ls : List ZoomLevel), (∀ l ∈ ls, l.name ≠ "z0") → find_z0 ls = .error .levelNotFound := by
  intro ls
  induction ls with
  | nil => intro _; rfl
  | cons a rest ih =>
    intro hno
    rw [show find_z0 (a :: rest) = if a.name = "z0" then .ok a else find_z0 rest from rfl,
      if_neg (hno a (List.mem_cons_self a rest))]
    exact ih (fun l hl => hno l (List.mem_cons_of_mem a hl))

/-! The claims. -/

/-- C2: for every descriptor whose level collection contains a (unique) level
named "z0", get_highest_level returns exactly that level, regardless of its
position among the levels. -/
theorem claim_C2_level_selection (d : TileDescriptor) (l : ZoomLevel)
    (hmem : l ∈ d.levels) (hname : l.name = "z0")
    (huniq : ∀ l' ∈ d.levels, l'.name = "z0" → l' = l) :
    get_highest_level d = .ok l := by
  unfold get_highest_level
  exact find_z0_of_mem d.levels l hmem hname huniq

/-- Witness for C2: a descriptor whose "z0" level sits in the middle of three
levels is selected. -/
theorem claim_C2_witness :
    get_highest_level descLevels3 = .ok ⟨"z0", 100, 100, tiles4⟩ :=
  claim_C2_level_selection descLevels3 ⟨"z0", 100, 100, tiles4⟩
    (by decide) (by decide) (by decide)

/-- C3: for every descriptor with no level named "z0", get_highest_level
signals the level-not-found error (the UnboundLocalError the fall-through scan
raises) and never returns some other level. -/
theorem claim_C3_missing_level (d : TileDescriptor)
    (h : ∀ l ∈ d.levels, l.name ≠ "z0") :
    get_highest_level d = .error .levelNotFound := by
  unfold get_highest_level
  exact find_z0_none d.levels h

/-- Witness for C3: a two-level descriptor without "z0" errors. -/
theorem claim_C3_witness :
    get_highest_level descNoZ0 = .error .levelNotFound :=
  claim_C3_missing_level descNoZ0 (by decide)

/-- C4: if any tile of the selected level fails to fetch or decode, the whole
download_image run ends in an error and no artifact is saved, regardless of
the other tiles. -/
theorem claim_C4_fatal_tile (env : Env) (url : String) (d : TileDescriptor) (level : ZoomLevel)
    (t : TileRef)
    (hd : env.descriptor (json_url url) = some d)
    (hl : get_highest_level d = .ok level)
    (ht : t ∈ level.tiles)
    (hf : fetchRaster env t = none) :
    (∃ e, (download_image env url).1 = .error e) ∧
    ∀ s : String, Event.save s ∉ (download_image env url).2 := by
  have hgj : get_json env url = (.ok d, [Event.fetchDescriptor (json_url url)]) := by
    simp [get_json, hd]
  cases hrun : (run_tiles env url
      { img := Raster.new level.width level.height, cell := none, ident := none }
      level.tiles).1 with
  | ok st' =>
    exfalso
    have := run_tiles_ok_fetch hrun t ht
    rw [hf] at this
    simp at this
  | error e =>
    constructor
    · exact ⟨e, by simp only [download_image, hgj, hl, hrun]⟩
    · intro s hs
      simp only [download_image, hgj, hl, hrun, List.mem_append] at hs
      rcases hs with hs | hs
      · simp at hs
      · exact run_tiles_no_save env url level.tiles _ s hs

/-- Witness for C4: a level with one good tile and one unreachable tile
produces an error and saves nothing. -/
theorem claim_C4_witness :
    (∃ e, (download_image envBadTile exUrl).1 = .error e) ∧
    ∀ s : String, Event.save s ∉ (download_image envBadTile exUrl).2 :=
  claim_C4_fatal_tile envBadTile exUrl descBadTile ⟨"z0", 100, 100, [⟨"t0", 0, 0⟩, ⟨"bad", 1, 0⟩]⟩
    ⟨"bad", 1, 0⟩ rfl rfl (by decide) rfl

/-- C10: when the selected level has no tiles, download_image does not save a
blank canvas: the local id is only assigned inside the tile loop, so the save
step fails with the unbound-name error and no artifact is produced. -/
theorem claim_C10_empty_tiles (env : Env) (url : String) (d : TileDescriptor) (level : ZoomLevel)
    (hd : env.descriptor (json_url url) = some d)
    (hl : get_highest_level d = .ok level)
    (hts : level.tiles = []) :
    (download_image env url).1 = .error .unboundName ∧
    ∀ s : String, Event.save s ∉ (download_image env url).2 := by
  have hgj : get_json env url = (.ok d, [Event.fetchDescriptor (json_url url)]) := by
    simp [get_json, hd]
  constructor
  · simp only [download_image, hgj, hl, hts, run_tiles]
  · intro s hs
    simp only [download_image, hgj, hl, hts, run_tiles] at hs
    simp at hs

/-- Witness for C10: the empty-tiles descriptor yields the unbound-name error
and an artifact-free trace. -/
theorem claim_C10_witness :
    (download_image envNoTiles exUrl).1 = .error .unboundName ∧
    ∀ s : String, Event.save s ∉ (download_image envNoTiles exUrl).2 :=
  claim_C10_empty_tiles envNoTiles exUrl descNoTiles ⟨"z0", 100, 100, []⟩ rfl rfl rfl

/-- C7: paste clips on write. Pasting never changes the canvas dimensions and
never errors (it is a total function); on a 120 x 100 canvas with a 50 x 50
tile pasted at offset x = 100 (grid column 2), an in-canvas pixel (i, j) shows
the tile exactly when 100 <= i and j < 50, i.e. only the leftmost 20 columns
of the tile (i - 100 < 20) ever appear; the out-of-bounds remainder is
silently discarded. -/
theorem claim_C7_clipping (img tile : Raster) :
    (∀ x y : Int, (paste img tile x y).width = img.width ∧
      (paste img tile x y).height = img.height) ∧
    (img.width = 120 → img.height = 100 → tile.width = 50 → tile.height = 50 →
      ∀ i j : Nat, i < 120 → j < 100 →
        (paste img tile 100 0).pix i j =
          if 100 ≤ i ∧ j < 50 then tile.pix (i - 100) j else img.pix i j) := by
  constructor
  · intro x y; exact ⟨rfl, rfl⟩
  · intro hw hh htw hth i j hi hj
    rw [paste_pix, htw, hth]
    split_ifs with h1 h2
    · congr 1
      omega
    · exfalso; omega
    · exfalso; omega
    · rfl

/-- Witness for C7: on a concrete 120 x 100 canvas, pixel (105, 10) shows
tile pixel (5, 10) and the canvas width is still 120. -/
theorem claim_C7_witness :
    (paste (Raster.new 120 100) (tileRaster 7) 100 0).pix 105 10 = (tileRaster 7).pix 5 10 ∧
    (paste (Raster.new 120 100) (tileRaster 7) 100 0).width = 120 := by
  obtain ⟨hdims, hpix⟩ := claim_C7_clipping (Raster.new 120 100) (tileRaster 7)
  constructor
  · rw [hpix rfl rfl rfl rfl 105 10 (by decide) (by decide), if_pos (by decide)]
  · exact (hdims 100 0).1

/-- Counterexample to C5 as stated: for the URL badUrl, which has no
"resource/" segment, download_image nonetheless performs network activity —
the descriptor fetch and a tile fetch both appear in the trace — before
failing with the identifier-extraction error, because the extraction happens
inside the tile loop, not before the pipeline starts. -/
theorem claim_C5_counterexample :
    extract_id badUrl = none ∧
    (download_image envOneTile badUrl).1 = .error .identifierExtraction ∧
    Event.fetchDescriptor (json_url badUrl) ∈ (download_image envOneTile badUrl).2 ∧
    Event.fetchTile "t0" ∈ (download_image envOneTile badUrl).2 := by
  have htr : (download_image envOneTile badUrl).2 =
      [Event.fetchDescriptor (json_url badUrl), Event.fetchTile "t0"] := rfl
  refine ⟨by decide, rfl, ?_, ?_⟩ <;> rw [htr] <;> simp

/-- C5 (amended): for a URL with no "resource/" segment, when the descriptor
fetch succeeds and the level's first tile fetches and decodes, download_image
fails with the identifier-extraction error — but only after the descriptor and
that first tile have been fetched (the check sits inside the tile loop, after
network activity has begun); no artifact is saved. -/
theorem claim_C5_amended_order (env : Env) (url : String) (d : TileDescriptor)
    (level : ZoomLevel) (t : TileRef) (rest : List TileRef) (r : Raster)
    (hid : extract_id url = none)
    (hd : env.descriptor (json_url url) = some d)
    (hl : get_highest_level d = .ok level)
    (hts : level.tiles = t :: rest)
    (hf : fetchRaster env t = some r) :
    (download_image env url).1 = .error .identifierExtraction ∧
    Event.fetchDescriptor (json_url url) ∈ (download_image env url).2 ∧
    Event.fetchTile t.url ∈ (download_image env url).2 ∧
    ∀ s : String, Event.save s ∉ (download_image env url).2 := by
  obtain ⟨s0, c0, henv, hdec⟩ := fetchRaster_elim hf
  have hgj : get_json env url = (.ok d, [Event.fetchDescriptor (json_url url)]) := by
    simp [get_json, hd]
  have hpt : process_tile env url
      { img := Raster.new level.width level.height, cell := none, ident := none } t =
      (.error .identifierExtraction, [Event.fetchTile t.url]) := by
    simp [process_tile, henv, hdec, hid]
  have hrun : run_tiles env url
      { img := Raster.new level.width level.height, cell := none, ident := none }
      (t :: rest) = (.error .identifierExtraction, [Event.fetchTile t.url]) := by
    simp only [run_tiles, hpt]
  refine ⟨?_, ?_, ?_, ?_⟩
  · simp only [download_image, hgj, hl, hts, hrun]
  · simp only [download_image, hgj, hl, hts, hrun]
    simp
  · simp only [download_image, hgj, hl, hts, hrun]
    simp
  · intro s hs
    simp only [download_image, hgj, hl, hts, hrun] at hs
    simp at hs

/-- Witness for C5 (amended): the concrete bad URL hits the extraction error
after the descriptor and first tile were fetched, with nothing saved. -/
theorem claim_C5_witness :
    (download_image envOneTile badUrl).1 = .error .identifierExtraction ∧
    Event.fetchDescriptor (json_url badUrl) ∈ (download_image envOneTile badUrl).2 ∧
    Event.fetchTile "t0" ∈ (download_image envOneTile badUrl).2 ∧
    ∀ s : String, Event.save s ∉ (download_image envOneTile badUrl).2 :=
  claim_C5_amended_order envOneTile badUrl descOneTile ⟨"z0", 100, 100, [⟨"t0", 0, 0⟩]⟩
    ⟨"t0", 0, 0⟩ [] (tileRaster 0) (by decide) rfl rfl rfl rfl

/-- Counterexample to C6 as stated: the only tile of descHtmlTile is answered
with HTTP status 404 and an HTML-like body; requests does not raise on a
non-2xx status, so the body bytes are handed to the decoder and the run fails
with the tile-decode error, not the tile-fetch error the claim requires. -/
theorem claim_C6_counterexample :
    envHtmlTile.tile "html404" = .response 404 [9, 9] ∧
    exDecode [9, 9] = none ∧
    (download_image envHtmlTile exUrl).1 = .error (.tileDecode "html404") ∧
    (download_image envHtmlTile exUrl).1 ≠ .error (.tileFetch "html404") := by
  refine ⟨rfl, rfl, rfl, ?_⟩
  intro hcontra
  have heq : Err.tileDecode "html404" = Err.tileFetch "html404" :=
    Except.error.inj ((show (download_image envHtmlTile exUrl).1 =
      .error (.tileDecode "html404") from rfl).symm.trans hcontra)
  exact absurd heq (by decide)

/-- C6 (amended): a transport-level failure (network error / timeout) on a
tile aborts the iteration with the tile-fetch error; a non-2xx HTTP response
is not a fetch error: its body bytes are passed to the decoder, and when they
are not a valid image the iteration aborts with the tile-decode error. Either
error short-circuits the loop, aborting the reconstruction. -/
theorem claim_C6_amended_fetch_vs_decode (env : Env) (url : String) (st : LoopState)
    (t : TileRef) :
    (env.tile t.url = .netFail →
      process_tile env url st t = (.error (.tileFetch t.url), [Event.fetchTile t.url])) ∧
    (∀ s c, env.tile t.url = .response s c → env.decode c = none →
      process_tile env url st t = (.error (.tileDecode t.url), [Event.fetchTile t.url])) := by
  constructor
  · intro hnet
    simp [process_tile, hnet]
  · intro s c hresp hdec
    simp [process_tile, hresp, hdec]

/-- Witness for C6 (amended): a dead URL gives the fetch error; the 404 page
gives the decode error. -/
theorem claim_C6_witness :
    process_tile envHtmlTile exUrl { img := Raster.new 1 1, cell := none, ident := none }
      ⟨"dead", 0, 0⟩ = (.error (.tileFetch "dead"), [Event.fetchTile "dead"]) ∧
    process_tile envHtmlTile exUrl { img := Raster.new 1 1, cell := none, ident := none }
      ⟨"html404", 0, 0⟩ = (.error (.tileDecode "html404"), [Event.fetchTile "html404"]) :=
  ⟨(claim_C6_amended_fetch_vs_decode envHtmlTile exUrl _ _).1 rfl,
   (claim_C6_amended_fetch_vs_decode envHtmlTile exUrl _ _).2 404 [9, 9] rfl rfl⟩

/-- C9: for an input URL of the form prefix ++ "resource/" ++ identifier
(with the marker not occurring earlier and no newline in the identifier),
a successful run of download_image saves exactly one file whose name is
"slsa-" ++ slugify identifier ++ ".jpg": derived only from the slug-normalized
identifier, and containing no '/' — hence no other path segments. -/
theorem claim_C9_filename (env : Env) (pre ident : String) (d : TileDescriptor)
    (level : ZoomLevel)
    (hno : ∀ p : Nat, p < pre.data.length →
      ¬ ("resource/".data.isPrefixOf
          ((pre.data ++ "resource/".data ++ ident.data).drop p)) = true)
    (hnl : ∀ c ∈ ident.data, ¬ c = '\n')
    (hd : env.descriptor (json_url (pre ++ "resource/" ++ ident)) = some d)
    (hl : get_highest_level d = .ok level)
    (hne : level.tiles ≠ [])
    (hfetch : ∀ t ∈ level.tiles, (fetchRaster env t).isSome) :
    (∃ img : Raster, (download_image env (pre ++ "resource/" ++ ident)).1 =
      .ok ("slsa-" ++ slugify ident ++ ".jpg", img)) ∧
    ∀ c ∈ ("slsa-" ++ slugify ident ++ ".jpg").data, ¬ c = '/' := by
  have hid := extract_id_split pre ident hno hnl
  obtain ⟨st', hrun, hident⟩ := run_tiles_ok_exists hid level.tiles
    { img := Raster.new level.width level.height, cell := none, ident := none } hfetch
  have hempty : level.tiles.isEmpty = false := by
    cases hlt : level.tiles with
    | nil => exact absurd hlt hne
    | cons a r => rfl
  rw [hempty] at hident
  simp only [Bool.false_eq_true, if_false] at hident
  have hgj : get_json env (pre ++ "resource/" ++ ident) =
      (.ok d, [Event.fetchDescriptor (json_url (pre ++ "resource/" ++ ident))]) := by
    simp [get_json, hd]
  constructor
  · refine ⟨st'.img, ?_⟩
    simp only [download_image, hgj, hl, hrun, hident]
  · intro c hc
    have hsplit3 : ("slsa-" ++ slugify ident ++ ".jpg").data =
        "slsa-".data ++ (slugify ident).data ++ ".jpg".data := by
      rw [String.data_append, String.data_append]
    rw [hsplit3] at hc
    rcases List.mem_append.mp hc with hc | hc
    · rcases List.mem_append.mp hc with hc | hc
      · revert hc
        have : ∀ c' ∈ "slsa-".data, ¬ c' = '/' := by decide
        exact this c
      · intro hcontra
        rcases slugify_chars ident c hc with h | h
        · rw [hcontra] at h
          exact absurd h (by decide)
        · rw [hcontra] at h
          exact absurd h (by decide)
    · revert hc
      have : ∀ c' ∈ ".jpg".data, ¬ c' = '/' := by decide
      exact this c

/-- Witness for C9: for the concrete URL with identifier Bplus43122, the saved
artifact is named slsa-b-43122.jpg, with no slash in the name. -/
theorem claim_C9_witness :
    (∃ img : Raster, (download_image envOneTile exUrl).1 = .ok ("slsa-b-43122.jpg", img)) ∧
    ∀ c ∈ "slsa-b-43122.jpg".data, ¬ c = '/' := by
  have h := claim_C9_filename envOneTile "https://host/" "B+43122" descOneTile
    ⟨"z0", 100, 100, [⟨"t0", 0, 0⟩]⟩ (by decide) (by decide) rfl rfl (by decide) (by decide)
  have hurl : "https://host/" ++ "resource/" ++ "B+43122" = exUrl := rfl
  have hname : "slsa-" ++ slugify "B+43122" ++ ".jpg" = "slsa-b-43122.jpg" := by decide
  rw [hurl, hname] at h
  exact h

/-- C1: for a level of positive width and height whose (non-empty) tile list
all fetches and decodes to rasters of one size (cw, ch) — the size of the
first tile — the compositor loop succeeds, and each tile lands with its
top-left corner at canvas coordinate (x * cw, y * ch): every canvas pixel in
a tile's cell that no later tile also covers holds that tile's pixel
translated by that offset. -/
theorem claim_C1_placement (env : Env) (url : String) (w h cw ch : Nat) (ident : String)
    (ts : List TileRef) (r : TileRef → Raster)
    (_hw : 0 < w) (_hh : 0 < h)
    (hfetch : ∀ t ∈ ts, fetchRaster env t = some (r t))
    (hdims : ∀ t ∈ ts, (r t).width = cw ∧ (r t).height = ch)
    (hid : extract_id url = some ident)
    (t : TileRef) (l₁ l₂ : List TileRef) (hsplit : ts = l₁ ++ t :: l₂)
    (i j : Nat) (hreg : inRegion cw ch t i j)
    (hlater : ∀ u ∈ l₂, ¬ inRegion cw ch u i j) :
    ∃ st : LoopState,
      run_tiles env url { img := Raster.new w h, cell := none, ident := none } ts =
        (.ok st, ts.map (fun u => Event.fetchTile u.url)) ∧
      st.img.pix i j =
        (r t).pix ((i : Int) - t.x * (cw : Int)).toNat ((j : Int) - t.y * (ch : Int)).toNat := by
  subst hsplit
  obtain ⟨hd0, tl, hcons⟩ : ∃ hd0 tl, l₁ ++ t :: l₂ = hd0 :: tl := by
    cases l₁ with
    | nil => exact ⟨t, l₂, rfl⟩
    | cons a l₁' => exact ⟨a, l₁' ++ t :: l₂, rfl⟩
  have hfetch' : ∀ u ∈ hd0 :: tl, fetchRaster env u = some (r u) := by
    rw [← hcons]; exact hfetch
  have hdims' : ∀ u ∈ hd0 :: tl, (r u).width = cw ∧ (r u).height = ch := by
    rw [← hcons]; exact hdims
  have hrun := run_tiles_uniform hid r hd0 tl (Raster.new w h) hfetch' hdims'
  rw [← hcons] at hrun
  refine ⟨_, hrun, ?_⟩
  rw [pasteAll_pix]
  unfold coverValue
  have hlast : lastCover cw ch ((l₁ ++ t :: l₂).map (fun u => (u, r u))) i j =
      some (t, r t) := by
    unfold lastCover
    rw [List.map_append, List.map_cons, List.reverse_append, List.reverse_cons,
      List.find?_append, List.find?_append]
    have h2 : (l₂.map (fun u => (u, r u))).reverse.find?
        (fun q => coversB cw ch q i j) = none := by
      apply List.find?_eq_none.mpr
      intro q hq
      obtain ⟨u, hu, rfl⟩ := List.mem_map.mp (List.mem_reverse.mp hq)
      have hmem : u ∈ l₁ ++ t :: l₂ :=
        List.mem_append_right l₁ (List.mem_cons_of_mem t hu)
      intro hcov
      exact hlater u hu
        ((coversB_pair_iff (hdims u hmem).1 (hdims u hmem).2).mp (by simpa using hcov))
    have hmt : t ∈ l₁ ++ t :: l₂ := List.mem_append_right l₁ (List.mem_cons_self t l₂)
    have ht : List.find? (fun q => coversB cw ch q i j) [(t, r t)] = some (t, r t) := by
      have hcov : coversB cw ch (t, r t) i j = true :=
        (coversB_pair_iff (hdims t hmt).1 (hdims t hmt).2).mpr hreg
      simp [List.find?, hcov]
    rw [h2, ht]
    rfl
  rw [hlast]

set_option maxRecDepth 4000 in
/-- Witness for C1: the 100 x 100 level of four 50 x 50 tiles at grid
positions (0,0), (1,0), (0,1), (1,1) composes successfully; output pixel
(75, 75) equals pixel (25, 25) of the tile at grid (1, 1) (value 32525), and
every canvas pixel lies in exactly one tile's cell — the four cells tile the
canvas with no gap and no overlap. -/
theorem claim_C1_witness :
    (∃ st : LoopState,
      run_tiles envTiles4 exUrl { img := Raster.new 100 100, cell := none, ident := none }
        tiles4 = (.ok st, tiles4.map (fun u => Event.fetchTile u.url)) ∧
      st.img.pix 75 75 = (tileRaster 3).pix 25 25 ∧ (tileRaster 3).pix 25 25 = 32525) ∧
    (∀ i j : Fin 100,
      (tiles4.filter (fun t => decide (inRegion 50 50 t i j))).length = 1) := by
  constructor
  · obtain ⟨st, h1, h2⟩ := claim_C1_placement envTiles4 exUrl 100 100 50 50 "B+43122" tiles4
      (fun t => (fetchRaster envTiles4 t).getD default)
      (by decide) (by decide)
      (by intro t ht; fin_cases ht <;> rfl)
      (by intro t ht; fin_cases ht <;> exact ⟨rfl, rfl⟩)
      (by decide)
      ⟨"t3", 1, 1⟩ [⟨"t0", 0, 0⟩, ⟨"t1", 1, 0⟩, ⟨"t2", 0, 1⟩] [] rfl
      75 75 (by decide)
      (fun u hu => absurd hu (List.not_mem_nil u))
    exact ⟨st, h1, by rw [h2]; rfl, rfl⟩
  · decide

/-- C8: when every tile of a level decodes to a raster of the common size
(cw, ch) and the tiles' cells are pairwise disjoint, the canvas the compositor
loop produces is the same for any permutation of the tile list: processing
order does not affect the output image. -/
theorem claim_C8_perm_invariance (env : Env) (url : String) (w h cw ch : Nat) (ident : String)
    (ts ts' : List TileRef)
    (hperm : ts.Perm ts')
    (hfetch : ∀ t ∈ ts, ∃ rr, fetchRaster env t = some rr ∧ rr.width = cw ∧ rr.height = ch)
    (hdisj : ts.Pairwise (disjointTiles cw ch))
    (hid : extract_id url = some ident) :
    composeCanvas env url w h ts = composeCanvas env url w h ts' := by
  obtain ⟨r, hfetch', hdims⟩ :
      ∃ r : TileRef → Raster, (∀ t ∈ ts, fetchRaster env t = some (r t)) ∧
        (∀ t ∈ ts, (r t).width = cw ∧ (r t).height = ch) := by
    refine ⟨fun t => (fetchRaster env t).getD default, ?_, ?_⟩
    · intro t ht
      obtain ⟨rr, hrr, _, _⟩ := hfetch t ht
      simp [hrr]
    · intro t ht
      obtain ⟨rr, hrr, hw', hh'⟩ := hfetch t ht
      simp only [hrr, Option.getD_some]
      exact ⟨hw', hh'⟩
  have huniq : ∀ p ∈ ts.map (fun u => (u, r u)), ∀ q ∈ ts.map (fun u => (u, r u)),
      ∀ i j : Nat, coversB cw ch p i j = true → coversB cw ch q i j = true → p = q := by
    intro p hp q hq i j hcp hcq
    obtain ⟨u, hu, rfl⟩ := List.mem_map.mp hp
    obtain ⟨v, hv, rfl⟩ := List.mem_map.mp hq
    have hiu : inRegion cw ch u i j :=
      (coversB_pair_iff (hdims u hu).1 (hdims u hu).2).mp hcp
    have hiv : inRegion cw ch v i j :=
      (coversB_pair_iff (hdims v hv).1 (hdims v hv).2).mp hcq
    by_cases huv : u = v
    · rw [huv]
    · exact absurd ⟨hiu, hiv⟩
        (List.Pairwise.forall (by intro x y hxy; exact disjointTiles_symm hxy)
          hdisj hu hv huv i j)
  cases hts : ts with
  | nil =>
    have hts' : ts' = [] := List.Perm.eq_nil ((hts ▸ hperm).symm)
    rw [hts']
  | cons a rest =>
    cases hts' : ts' with
    | nil =>
      exfalso
      have := List.Perm.eq_nil (hts' ▸ hperm)
      rw [hts] at this
      exact absurd this (by simp)
    | cons a' rest' =>
      have hrun1 := run_tiles_uniform hid r a rest (Raster.new w h)
        (hts ▸ hfetch') (hts ▸ hdims)
      have hrun2 := run_tiles_uniform hid r a' rest' (Raster.new w h)
        (fun u hu => hfetch' u (hperm.mem_iff.mpr (hts' ▸ hu)))
        (fun u hu => hdims u (hperm.mem_iff.mpr (hts' ▸ hu)))
      unfold composeCanvas
      rw [hrun1, hrun2]
      simp only
      congr 1
      apply Raster.ext'
      · rw [pasteAll_width, pasteAll_width]
      · rw [pasteAll_height, pasteAll_height]
      · intro i j
        rw [pasteAll_pix, pasteAll_pix]
        unfold coverValue
        rw [lastCover_perm ((hts ▸ hts' ▸ hperm).map (fun u => (u, r u)))
          (hts ▸ huniq) i j]

/-- Witness for C8: two disjoint 50 x 50 tiles at grids (0,0) and (1,0)
compose to the same canvas in either order. -/
theorem claim_C8_witness :
    composeCanvas envTiles4 exUrl 100 50 [⟨"t0", 0, 0⟩, ⟨"t1", 1, 0⟩] =
    composeCanvas envTiles4 exUrl 100 50 [⟨"t1", 1, 0⟩, ⟨"t0", 0, 0⟩] := by
  apply claim_C8_perm_invariance envTiles4 exUrl 100 50 50 50 "B+43122"
  · exact List.Perm.swap (⟨"t1", 1, 0⟩ : TileRef) (⟨"t0", 0, 0⟩ : TileRef) []
  · intro t ht
    fin_cases ht
    · exact ⟨tileRaster 0, rfl, rfl, rfl⟩
    · exact ⟨tileRaster 1, rfl, rfl, rfl⟩
  · refine List.Pairwise.cons ?_ (List.pairwise_singleton _ _)
    intro u hu
    have : u = ⟨"t1", 1, 0⟩ := List.mem_singleton.mp hu
    rw [this]
    exact disjointTiles_of_grid (by decide) (by decide) (Or.inl (by decide))
  · decide

end Slsa
